import Mathlib

/-!
Verification development for the `shell-compose` process supervisor.

The Rust sources under `src/` are shallowly embedded: pure data types become
Lean structures and inductives, and the stateful operations of the daemon
(`Runner`, `Dispatcher`, the watcher thread, the output ring buffer and the
IPC framing layer) become pure functions with the external effects (process
reaping, spawning, clock reads) passed in explicitly as arguments.
-/

namespace ShellCompose

/-- Rust `String`, modelled as its UTF-8 byte sequence. -/
abbrev Str := List Nat

/-- `pub type JobId = u32` (dispatcher.rs). -/
abbrev JobId := Nat

/-- `pub type Pid = u32` (dispatcher.rs). -/
abbrev Pid := Nat

/-- `chrono::DateTime<Local>` in the supervision model, as milliseconds since
the epoch; `TimeDelta` comparisons in the source are millisecond comparisons. -/
abbrev Time := Int

/-- Restart policy (`enum Restart`, dispatcher.rs). -/
inductive Restart where
  | Always
  | OnFailure
  | Never
deriving DecidableEq, Repr

/-- `struct RestartInfo { policy, wait_time }` (dispatcher.rs); `wait_time` is
the waiting time before restart in ms (`u64`). -/
structure RestartInfo where
  policy : Restart
  wait_time : Nat
deriving DecidableEq, Repr

/-- `enum ProcStatus` (runner.rs). -/
inductive ProcStatus where
  | Spawned
  | Running
  | ExitOk
  | ExitErr (code : Int)
  | Unknown (msg : Str)
deriving DecidableEq, Repr

/-- `ProcStatus::exited` (runner.rs): `matches!(self, ExitOk | ExitErr(_))`. -/
def ProcStatus.exited : ProcStatus → Bool
  | .ExitOk => true
  | .ExitErr _ => true
  | _ => false

/-- `std::process::ExitStatus` of a reaped child: `code` is `None` when the
child was terminated by a signal. -/
structure ExitStatus where
  code : Option Int
deriving DecidableEq, Repr

/-- `ExitStatus::success()`: the process exited with code 0. -/
def ExitStatus.success (st : ExitStatus) : Bool := decide (st.code = some 0)

/-- Result of `GroupChild::try_wait()`: an io error, still running (`none`),
or a reaped exit status. -/
abbrev TryWait := Except Str (Option ExitStatus)

/-- `struct ProcInfo` (runner.rs).  The field `end` is spelled `end_` (Lean
keyword).  The telemetry fields (`cpu`, `memory`, …) are populated only by the
external `sysinfo` plug and read by no modelled operation; they are omitted
here and kept in the wire model (`ProcInfoWire`) where they are serialised. -/
structure ProcInfo where
  job_id : JobId
  pid : Pid
  cmd_args : List Str
  state : ProcStatus
  start : Time
  end_ : Option Time
deriving DecidableEq, Repr

/-- `struct Runner` (runner.rs): the process handle is external and the
output buffer is modelled separately (`OutputBuffer`), so the embedded Runner
keeps the supervision fields. -/
structure Runner where
  info : ProcInfo
  restart_info : RestartInfo
  user_terminated : Bool
deriving DecidableEq, Repr

/-- `struct JobSpawnInfo` (runner.rs): information for spawning a fresh
process. -/
structure JobSpawnInfo where
  job_id : JobId
  args : List Str
  restart_info : RestartInfo
deriving DecidableEq, Repr

/-- `Runner::update_proc_state` (runner.rs): classification of the
`try_wait` result, mirroring the `match` arms.  `status.code().unwrap_or(0)`
yields 0 for a signal-terminated child. -/
def classifyTryWait : TryWait → ProcStatus
  | .ok (some status) =>
      if status.success then ProcStatus.ExitOk
      else ProcStatus.ExitErr (status.code.getD 0)
  | .ok none => ProcStatus.Running
  | .error e => ProcStatus.Unknown e

/-- `Runner::update_proc_state` (runner.rs): if `end` is unset, re-classify
the state from the (environment-supplied) `try_wait` result; otherwise leave
the Runner unchanged. -/
def Runner.update_proc_state (r : Runner) (tw : TryWait) : Runner :=
  if r.info.end_ = none then
    { r with info := { r.info with state := classifyTryWait tw } }
  else r

/-- `Runner::is_running` (runner.rs): `!self.update_proc_state().state.exited()`. -/
def Runner.is_running (r : Runner) (tw : TryWait) : Bool :=
  !(r.update_proc_state tw).info.state.exited

/-- Respawn decision of `Runner::restart_infos` (runner.rs lines 223-230):
`!user_terminated && match policy { Always, OnFailure if ExitErr(c), c > 0, Never }`. -/
def Runner.respawn_decision (r : Runner) : Bool :=
  !r.user_terminated &&
    match r.restart_info.policy with
    | .Always => true
    | .OnFailure =>
        match r.info.state with
        | .ExitErr code => decide (0 < code)
        | _ => false
    | .Never => false

/-- `Runner::restart_infos` (runner.rs): if the respawn decision holds,
return the spawn information with the next back-off wait: reset to 50 ms when
the last run lasted more than 50 ms, else double.  `now` supplies
`Local::now()` used when `end` is unset. -/
def Runner.restart_infos (r : Runner) (now : Time) : Option JobSpawnInfo :=
  if r.respawn_decision then
    let last_duration := (r.info.end_.getD now) - r.info.start
    let restart_info :=
      if 50 < last_duration then { r.restart_info with wait_time := 50 }
      else { r.restart_info with wait_time := r.restart_info.wait_time * 2 }
    some { job_id := r.info.job_id, args := r.info.cmd_args, restart_info }
  else none

/-- Respawn decision inlined in `child_watcher` (dispatcher.rs lines 532-539):
textually the same condition as in `Runner::restart_infos`, re-implemented at
the watcher site. -/
def child_watcher_respawn (r : Runner) : Bool :=
  !r.user_terminated &&
    match r.restart_info.policy with
    | .Always => true
    | .OnFailure =>
        match r.info.state with
        | .ExitErr code => decide (0 < code)
        | _ => false
    | .Never => false

/-- One iteration of `child_watcher` (dispatcher.rs lines 514-558) acting on
the Runner found for the received pid: blocking-reap (external), then
`update_proc_state` with the environment-supplied `try_wait` result, then
`info.end = Some(ts)`; if the inline respawn decision holds, the respawn
request carries `child.info.cmd_args` and the *unchanged* `restart_info`
(the watcher sleeps `restart_info.wait_time` before the respawn). -/
def child_watcher_step (r : Runner) (ts : Time) (tw : TryWait) :
    Runner × Option JobSpawnInfo :=
  let r1 := r.update_proc_state tw
  let r2 := { r1 with info := { r1.info with end_ := some ts } }
  if child_watcher_respawn r2 then
    (r2, some { job_id := r2.info.job_id, args := r2.info.cmd_args,
                restart_info := r2.restart_info })
  else (r2, none)

/-- `struct LogLine` (runner.rs): one captured stdout/stderr line. -/
structure LogLine where
  ts : Time
  job_id : JobId
  pid : Pid
  line : Str
  is_stderr : Bool
deriving DecidableEq, Repr

/-- `struct OutputBuffer` (runner.rs): a `VecDeque<LogLine>` (front = oldest,
back = newest) with an optional capacity. -/
structure OutputBuffer where
  lines : List LogLine
  max_len : Option Nat
deriving DecidableEq, Repr

/-- `OutputBuffer::new` (runner.rs). -/
def OutputBuffer.new (max_len : Option Nat) : OutputBuffer :=
  { max_len, lines := [] }

/-- `OutputBuffer::push` (runner.rs): `push_back`, then `pop_front` once if the
length now exceeds `max_len`. -/
def OutputBuffer.push (b : OutputBuffer) (line : LogLine) : OutputBuffer :=
  let lines := b.lines ++ [line]
  match b.max_len with
  | some max_len =>
      if max_len < lines.length then { b with lines := lines.tail }
      else { b with lines }
  | none => { b with lines }

/-- `OutputBuffer::lines_since` (runner.rs): remembers the old cursor, sets
the caller's cursor to the ts of the back entry when the buffer is nonempty,
and returns `iter().skip_while(|entry| ts >= entry.ts)`.  The returned pair is
(yielded entries, new cursor value). -/
def OutputBuffer.lines_since (b : OutputBuffer) (last_seen : Time) :
    List LogLine × Time :=
  let ts := last_seen
  let new_cursor :=
    match b.lines.getLast? with
    | some entry => entry.ts
    | none => last_seen
  (b.lines.dropWhile (fun entry => decide (entry.ts ≤ ts)), new_cursor)

/-- `enum JobType` (dispatcher.rs). -/
inductive JobType where
  | Shell
  | Service (name : Str)
  | Cron (expr : Str)
deriving DecidableEq, Repr

/-- `struct JobInfo` (dispatcher.rs). -/
structure JobInfo where
  job_type : JobType
  args : List Str
  entrypoint : Option Str
  restart : RestartInfo
deriving DecidableEq, Repr

/-- `JobInfo::new_shell_job` (dispatcher.rs): `restart = Never` over the
default (`wait_time = 50`). -/
def JobInfo.new_shell_job (args : List Str) : JobInfo :=
  { job_type := JobType.Shell, args, entrypoint := none,
    restart := { policy := Restart.Never, wait_time := 50 } }

/-- `JobInfo::new_cron_job` (dispatcher.rs). -/
def JobInfo.new_cron_job (cron : Str) (args : List Str) : JobInfo :=
  { job_type := JobType.Cron cron, args, entrypoint := none,
    restart := { policy := Restart.Never, wait_time := 50 } }

/-- `struct Job` (dispatcher.rs). -/
structure Job where
  id : JobId
  info : JobInfo
deriving DecidableEq, Repr

/-- `enum DispatcherError` (dispatcher.rs); io errors carried as strings,
variants not reachable in the model kept for fidelity of the error type. -/
inductive DispatcherError where
  | ProcSpawnError (e : Str)
  | ProcSpawnTimeoutError
  | KillError (e : Str)
  | JobNotFoundError (id : JobId)
  | ServiceNotFoundError (name : Str)
  | ProcExitError (code : Int)
  | EmptyProcCommandError
  | UnexpectedMessageError
  | CronError (e : Str)
deriving DecidableEq, Repr

/-- Spawn environment for `Runner::spawn`: the OS outcome of
`Command::group_spawn` (a pid, or an io error) and the spawn timestamp
(`Local::now()`). -/
structure SpawnEnv where
  spawn_result : Except Str Pid
  now : Time
deriving Repr

/-- `Runner::spawn` (runner.rs): fails with `EmptyProcCommandError` when argv
is empty, otherwise builds a fresh Runner with `state = Spawned`,
`start = now`, `end = None`, `user_terminated = false`; OS spawn failures are
`ProcSpawnError`. -/
def Runner.spawn (job_id : JobId) (args : List Str) (restart_info : RestartInfo)
    (env : SpawnEnv) : Except DispatcherError Runner :=
  match args with
  | [] => Except.error DispatcherError.EmptyProcCommandError
  | _ :: _ =>
      match env.spawn_result with
      | .error e => Except.error (DispatcherError.ProcSpawnError e)
      | .ok pid =>
          Except.ok
            { info := { job_id, pid, cmd_args := args,
                        state := ProcStatus.Spawned, start := env.now,
                        end_ := none },
              restart_info, user_terminated := false }

/-- Insert into an association list modelling `BTreeMap::insert`. -/
def mapInsert {α : Type} (k : Nat) (v : α) : List (Nat × α) → List (Nat × α)
  | [] => [(k, v)]
  | (k', v') :: rest =>
      if k = k' then (k, v) :: rest else (k', v') :: mapInsert k v rest

/-- Lookup in an association list (`BTreeMap::get` / `HashMap::get`). -/
def mapLookup {α : Type} (k : Nat) : List (Nat × α) → Option α
  | [] => none
  | (k', v) :: rest => if k = k' then some v else mapLookup k rest

/-- Remove from an association list (`BTreeMap::remove` / `HashMap::remove`). -/
def mapRemove {α : Type} (k : Nat) (l : List (Nat × α)) : List (Nat × α) :=
  l.filter (fun p => decide (p.1 ≠ k))

/-- Dispatcher state (dispatcher.rs): job registry, last allocated id, cron
registry (`JobId → Uuid`), registered scheduler entries (by Uuid), and the
shared Runner list. -/
structure DispatcherState where
  jobs : List (JobId × JobInfo)
  last_job_id : JobId
  cronjobs : List (JobId × Nat)
  sched : List Nat
  procs : List Runner
deriving Repr

/-- `Dispatcher::create` (dispatcher.rs): empty registry, `last_job_id = 0`. -/
def DispatcherState.create : DispatcherState :=
  { jobs := [], last_job_id := 0, cronjobs := [], sched := [], procs := [] }

/-- `Dispatcher::add_job` (dispatcher.rs): increment `last_job_id`, insert the
job under the new id, return the id. -/
def DispatcherState.add_job (st : DispatcherState) (job : JobInfo) :
    JobId × DispatcherState :=
  let id := st.last_job_id + 1
  (id, { st with last_job_id := id, jobs := mapInsert id job st.jobs })

/-- `Dispatcher::spawn_job` (dispatcher.rs): look up the job
(`JobNotFoundError` when absent), `Runner::spawn`, push the child onto the
Runner list; after the 10 ms startup window the state of the pushed child is
re-read (`observed`, supplied by the environment since the watcher may have
updated it concurrently) and an `ExitErr` observed there is returned as
`ProcExitError` — with the child still on the list. -/
def DispatcherState.spawn_job (st : DispatcherState) (env : SpawnEnv)
    (observed : ProcStatus) (job_id : JobId) :
    Except DispatcherError Unit × DispatcherState :=
  match mapLookup job_id st.jobs with
  | none => (Except.error (DispatcherError.JobNotFoundError job_id), st)
  | some job =>
      match Runner.spawn job_id job.args job.restart env with
      | .error e => (Except.error e, st)
      | .ok child =>
          let st1 := { st with procs := st.procs ++ [child] }
          match observed with
          | ProcStatus.ExitErr code =>
              (Except.error (DispatcherError.ProcExitError code), st1)
          | _ => (Except.ok (), st1)

/-- `Dispatcher::run` (dispatcher.rs): allocate a Shell job (registered
*before* spawning), then `spawn_job`; on success reply `[job_id]`.  A spawn
failure leaves the registered job in place. -/
def DispatcherState.run (st : DispatcherState) (env : SpawnEnv)
    (observed : ProcStatus) (args : List Str) :
    Except DispatcherError (List JobId) × DispatcherState :=
  let (job_id, st1) := st.add_job (JobInfo.new_shell_job args)
  match st1.spawn_job env observed job_id with
  | (.ok _, st2) => (Except.ok [job_id], st2)
  | (.error e, st2) => (Except.error e, st2)

/-- Map with the position index, used to pair each Runner with its
environment-supplied `try_wait` and kill outcomes. -/
def mapIdxFrom {α β : Type} (f : Nat → α → β) : Nat → List α → List β
  | _, [] => []
  | i, a :: l => f i a :: mapIdxFrom f (i + 1) l

/-- The for-loop of `Dispatcher::stop` (dispatcher.rs lines 252-263), left to
right over the Runner list, the position index selecting the environment's
`try_wait` and kill outcomes.  For a child of the stopped job, `is_running()`
first updates the proc state; if still running, `user_terminated` is set and
the child is terminated — a kill failure is propagated by `?` as `KillError`
and aborts the loop: the failing child keeps its already-set flag, the
remaining Runners are not visited, and no further pid is collected.  Returns
(runner list, pids terminated, error if any). -/
def stop_loop (job_id : JobId) (tw : Nat → TryWait)
    (kill : Nat → Except Str Unit) :
    Nat → List Runner → List Runner × List Pid × Option DispatcherError
  | _, [] => ([], [], none)
  | i, r :: rest =>
      if r.info.job_id = job_id then
        let r1 := r.update_proc_state (tw i)
        if r1.info.state.exited then
          let (rs, ks, e) := stop_loop job_id tw kill (i + 1) rest
          (r1 :: rs, ks, e)
        else
          let r2 := { r1 with user_terminated := true }
          match kill i with
          | .error e => (r2 :: rest, [], some (DispatcherError.KillError e))
          | .ok _ =>
              let (rs, ks, e) := stop_loop job_id tw kill (i + 1) rest
              (r2 :: rs, r2.info.pid :: ks, e)
      else
        let (rs, ks, e) := stop_loop job_id tw kill (i + 1) rest
        (r :: rs, ks, e)

/-- `Dispatcher::stop` (dispatcher.rs): remove the cron entry (and its
scheduler registration) if present; run the terminate loop over the Runner
list — a kill failure returns `KillError` *before* the registry is touched,
so `jobs.remove` is skipped; otherwise remove the job from the registry,
with `JobNotFoundError` exactly when the id was not registered.  Returns
(result, new state, pids terminated). -/
def DispatcherState.stop (st : DispatcherState) (tw : Nat → TryWait)
    (kill : Nat → Except Str Unit) (job_id : JobId) :
    Except DispatcherError Unit × DispatcherState × List Pid :=
  let (cronjobs, sched) :=
    match mapLookup job_id st.cronjobs with
    | some uuid =>
        (mapRemove job_id st.cronjobs, st.sched.filter (fun u => decide (u ≠ uuid)))
    | none => (st.cronjobs, st.sched)
  match stop_loop job_id tw kill 0 st.procs with
  | (procs, kills, some e) =>
      (Except.error e, { st with cronjobs, sched, procs }, kills)
  | (procs, kills, none) =>
      let found := (mapLookup job_id st.jobs).isSome
      let st' := { st with cronjobs, sched, procs, jobs := mapRemove job_id st.jobs }
      if found then (Except.ok (), st', kills)
      else (Except.error (DispatcherError.JobNotFoundError job_id), st', kills)

/-- The Runner update performed by one iteration of the stop loop (relevant
when no kill failure aborts earlier): children of the stopped job are
re-classified via `update_proc_state` and, if still running, marked
`user_terminated`; other Runners are untouched. -/
def stop_update (job_id : JobId) (tw : TryWait) (r : Runner) : Runner :=
  if r.info.job_id = job_id then
    let r1 := r.update_proc_state tw
    if r1.info.state.exited then r1 else { r1 with user_terminated := true }
  else r

/-- The pid terminated by one iteration of the stop loop, if any. -/
def stop_kill (job_id : JobId) (tw : TryWait) (r : Runner) : Option Pid :=
  if r.info.job_id = job_id then
    let r1 := r.update_proc_state tw
    if r1.info.state.exited then none else some r1.info.pid
  else none

/-- `Dispatcher::run_at` (dispatcher.rs): allocate a Cron job, register the
schedule (fresh uuid) and the cron registry entry.  The spawn itself happens
later inside the scheduler callback. -/
def DispatcherState.run_at (st : DispatcherState) (uuid : Nat) (cron : Str)
    (args : List Str) :
    Except DispatcherError (List JobId) × DispatcherState :=
  let (job_id, st1) := st.add_job (JobInfo.new_cron_job cron args)
  (Except.ok [job_id],
   { st1 with cronjobs := mapInsert job_id uuid st1.cronjobs,
              sched := st1.sched ++ [uuid] })

/-- The closure registered by `Dispatcher::run_at` (dispatcher.rs lines
282-286) and invoked by the cron scheduler at each firing:
`Runner::spawn(..).unwrap()` then push.  The `.unwrap()` on a spawn error is
a panic, which unwinds the scheduler thread: modelled as `Except.error`. -/
def cron_callback (spawn_result : Except DispatcherError Runner)
    (procs : List Runner) : Except DispatcherError (List Runner) :=
  match spawn_result with
  | .ok child => Except.ok (procs ++ [child])
  | .error e => Except.error e

/-- Respawn handling at the end of `child_watcher` (dispatcher.rs lines
546-558): a spawn error is logged (`error!`) and the loop continues with the
Runner list unchanged. -/
def watcher_respawn_push (spawn_result : Except DispatcherError Runner)
    (procs : List Runner) : List Runner :=
  match spawn_result with
  | .ok child => procs ++ [child]
  | .error _ => procs

/-! ## Wire model

The framing layer (ipc.rs `SocketExt::read_serde` / `write_serde`):
`u32` little-endian length prefix followed by the `bincode`-serialised body.
`bincode` v1 with default options writes fixed-width little-endian integers,
`u32` enum variant tags, `u64` lengths for sequences and strings, a single
byte for `bool` and `Option` tags, and the raw IEEE-754 bits for floats.
Strings travel as their UTF-8 bytes, `chrono::DateTime<Local>` as its RFC3339
string rendering (`DateTimeWire` keeps that rendering as the model of the
timestamp), and `f32` as its 32-bit pattern (`cpu` is a bit pattern here). -/

/-- Wire bytes. -/
abbrev Bytes := List Nat

/-- Little-endian `u32` encoding. -/
def serU32 (n : Nat) : Bytes :=
  [n % 256, n / 256 % 256, n / 65536 % 256, n / 16777216 % 256]

/-- Little-endian `u32` decoding. -/
def deU32 : Bytes → Option (Nat × Bytes)
  | b0 :: b1 :: b2 :: b3 :: rest =>
      some (b0 + 256 * b1 + 65536 * b2 + 16777216 * b3, rest)
  | _ => none

/-- Little-endian `u64` encoding. -/
def serU64 (n : Nat) : Bytes :=
  [n % 256, n / 256 % 256, n / 65536 % 256, n / 16777216 % 256,
   n / 4294967296 % 256, n / 1099511627776 % 256,
   n / 281474976710656 % 256, n / 72057594037927936 % 256]

/-- Little-endian `u64` decoding. -/
def deU64 : Bytes → Option (Nat × Bytes)
  | b0 :: b1 :: b2 :: b3 :: b4 :: b5 :: b6 :: b7 :: rest =>
      some (b0 + 256 * b1 + 65536 * b2 + 16777216 * b3 + 4294967296 * b4
              + 1099511627776 * b5 + 281474976710656 * b6
              + 72057594037927936 * b7, rest)
  | _ => none

/-- Little-endian two's-complement `i32` encoding. -/
def serI32 (i : Int) : Bytes := serU32 (i % 4294967296).toNat

/-- Little-endian two's-complement `i32` decoding. -/
def deI32 (b : Bytes) : Option (Int × Bytes) :=
  match deU32 b with
  | some (n, rest) =>
      some (if n < 2147483648 then (n : Int) else (n : Int) - 4294967296, rest)
  | none => none

/-- `bool` encoding (one byte). -/
def serBool (b : Bool) : Bytes := [if b then 1 else 0]

/-- `bool` decoding. -/
def deBool : Bytes → Option (Bool × Bytes)
  | b :: rest =>
      if b = 0 then some (false, rest)
      else if b = 1 then some (true, rest)
      else none
  | [] => none

/-- `String` / byte-sequence encoding: `u64` length then the bytes. -/
def serStr (s : Str) : Bytes := serU64 s.length ++ s

/-- `String` decoding: `u64` length then that many bytes (failing like
`read_exact` when the input is shorter). -/
def deStr (b : Bytes) : Option (Str × Bytes) :=
  match deU64 b with
  | some (n, rest) =>
      if n ≤ rest.length then some (rest.take n, rest.drop n) else none
  | none => none

/-- `Vec<T>` encoding: `u64` element count then the elements. -/
def serList {α : Type} (f : α → Bytes) (xs : List α) : Bytes :=
  serU64 xs.length ++ (xs.map f).flatten

/-- Decode exactly `n` elements. -/
def deListN {α : Type} (de : Bytes → Option (α × Bytes)) :
    Nat → Bytes → Option (List α × Bytes)
  | 0, b => some ([], b)
  | n + 1, b =>
      match de b with
      | some (x, rest) =>
          match deListN de n rest with
          | some (xs, rest') => some (x :: xs, rest')
          | none => none
      | none => none

/-- `Vec<T>` decoding. -/
def deList {α : Type} (de : Bytes → Option (α × Bytes)) (b : Bytes) :
    Option (List α × Bytes) :=
  match deU64 b with
  | some (n, rest) => deListN de n rest
  | none => none

/-- `Option<T>` encoding: a one-byte tag then the payload. -/
def serOpt {α : Type} (f : α → Bytes) : Option α → Bytes
  | none => [0]
  | some x => 1 :: f x

/-- `Option<T>` decoding. -/
def deOpt {α : Type} (de : Bytes → Option (α × Bytes)) :
    Bytes → Option (Option α × Bytes)
  | t :: rest =>
      if t = 0 then some (none, rest)
      else if t = 1 then
        match de rest with
        | some (x, rest') => some (some x, rest')
        | none => none
      else none
  | [] => none

/-- `chrono::DateTime<Local>` on the wire: chrono's serde implementation
writes the RFC3339 string rendering; the model keeps that rendering. -/
structure DateTimeWire where
  rfc3339 : Str
deriving DecidableEq, Repr

/-- Serialisation of a wire timestamp (a string on the wire). -/
def serDateTime (d : DateTimeWire) : Bytes := serStr d.rfc3339

/-- Decoding of a wire timestamp. -/
def deDateTime (b : Bytes) : Option (DateTimeWire × Bytes) :=
  match deStr b with
  | some (s, rest) => some (⟨s⟩, rest)
  | none => none

/-- `enum Restart` on the wire (variant tags 0..2 in declaration order). -/
def serRestart : Restart → Bytes
  | .Always => serU32 0
  | .OnFailure => serU32 1
  | .Never => serU32 2

/-- Decoding of `Restart`. -/
def deRestart (b : Bytes) : Option (Restart × Bytes) :=
  match deU32 b with
  | some (tag, rest) =>
      if tag = 0 then some (Restart.Always, rest)
      else if tag = 1 then some (Restart.OnFailure, rest)
      else if tag = 2 then some (Restart.Never, rest)
      else none
  | none => none

/-- `struct RestartInfo` on the wire: `policy`, then `wait_time : u64`. -/
def serRestartInfo (ri : RestartInfo) : Bytes :=
  serRestart ri.policy ++ serU64 ri.wait_time

/-- Decoding of `RestartInfo`. -/
def deRestartInfo (b : Bytes) : Option (RestartInfo × Bytes) :=
  match deRestart b with
  | some (policy, rest) =>
      match deU64 rest with
      | some (wait_time, rest') => some ({ policy, wait_time }, rest')
      | none => none
  | none => none

/-- `enum JobType` on the wire (`Shell` 0, `Service` 1, `Cron` 2). -/
def serJobType : JobType → Bytes
  | .Shell => serU32 0
  | .Service name => serU32 1 ++ serStr name
  | .Cron expr => serU32 2 ++ serStr expr

/-- Decoding of `JobType`. -/
def deJobType (b : Bytes) : Option (JobType × Bytes) :=
  match deU32 b with
  | some (tag, rest) =>
      if tag = 0 then some (JobType.Shell, rest)
      else if tag = 1 then
        match deStr rest with
        | some (name, rest') => some (JobType.Service name, rest')
        | none => none
      else if tag = 2 then
        match deStr rest with
        | some (expr, rest') => some (JobType.Cron expr, rest')
        | none => none
      else none
  | none => none

/-- `struct JobInfo` on the wire: `job_type`, `args`, `entrypoint`,
`restart`, in declaration order. -/
def serJobInfo (j : JobInfo) : Bytes :=
  serJobType j.job_type ++ serList serStr j.args ++ serOpt serStr j.entrypoint
    ++ serRestartInfo j.restart

/-- Decoding of `JobInfo`. -/
def deJobInfo (b : Bytes) : Option (JobInfo × Bytes) :=
  match deJobType b with
  | some (job_type, b1) =>
      match deList deStr b1 with
      | some (args, b2) =>
          match deOpt deStr b2 with
          | some (entrypoint, b3) =>
              match deRestartInfo b3 with
              | some (restart, b4) =>
                  some ({ job_type, args, entrypoint, restart }, b4)
              | none => none
          | none => none
      | none => none
  | none => none

/-- `struct Job` on the wire: `id : u32`, then `info`. -/
def serJob (j : Job) : Bytes := serU32 j.id ++ serJobInfo j.info

/-- Decoding of `Job`. -/
def deJob (b : Bytes) : Option (Job × Bytes) :=
  match deU32 b with
  | some (id, b1) =>
      match deJobInfo b1 with
      | some (info, b2) => some ({ id, info }, b2)
      | none => none
  | none => none

/-- `enum ProcStatus` on the wire (tags 0..4, `ExitErr` carries an `i32`,
`Unknown` a string). -/
def serProcStatus : ProcStatus → Bytes
  | .Spawned => serU32 0
  | .Running => serU32 1
  | .ExitOk => serU32 2
  | .ExitErr code => serU32 3 ++ serI32 code
  | .Unknown msg => serU32 4 ++ serStr msg

/-- Decoding of `ProcStatus`. -/
def deProcStatus (b : Bytes) : Option (ProcStatus × Bytes) :=
  match deU32 b with
  | some (tag, rest) =>
      if tag = 0 then some (ProcStatus.Spawned, rest)
      else if tag = 1 then some (ProcStatus.Running, rest)
      else if tag = 2 then some (ProcStatus.ExitOk, rest)
      else if tag = 3 then
        match deI32 rest with
        | some (code, rest') => some (ProcStatus.ExitErr code, rest')
        | none => none
      else if tag = 4 then
        match deStr rest with
        | some (msg, rest') => some (ProcStatus.Unknown msg, rest')
        | none => none
      else none
  | none => none

/-- `struct ProcInfo` (runner.rs) as serialised: full field list in
declaration order.  `cpu : f32` is carried as its IEEE-754 bit pattern
(bincode writes exactly those four bytes); timestamps are `DateTimeWire`. -/
structure ProcInfoWire where
  job_id : JobId
  pid : Pid
  cmd_args : List Str
  state : ProcStatus
  start : DateTimeWire
  end_ : Option DateTimeWire
  cpu : Nat
  memory : Nat
  virtual_memory : Nat
  total_written_bytes : Nat
  written_bytes : Nat
  total_read_bytes : Nat
  read_bytes : Nat
deriving DecidableEq, Repr

/-- Serialisation of `ProcInfo`. -/
def serProcInfo (p : ProcInfoWire) : Bytes :=
  serU32 p.job_id ++ serU32 p.pid ++ serList serStr p.cmd_args
    ++ serProcStatus p.state ++ serDateTime p.start
    ++ serOpt serDateTime p.end_ ++ serU32 p.cpu ++ serU64 p.memory
    ++ serU64 p.virtual_memory ++ serU64 p.total_written_bytes
    ++ serU64 p.written_bytes ++ serU64 p.total_read_bytes
    ++ serU64 p.read_bytes

/-- Decoding of `ProcInfo`. -/
def deProcInfo (b : Bytes) : Option (ProcInfoWire × Bytes) :=
  match deU32 b with
  | some (job_id, b1) =>
    match deU32 b1 with
    | some (pid, b2) =>
      match deList deStr b2 with
      | some (cmd_args, b3) =>
        match deProcStatus b3 with
        | some (state, b4) =>
          match deDateTime b4 with
          | some (start, b5) =>
            match deOpt deDateTime b5 with
            | some (end_, b6) =>
              match deU32 b6 with
              | some (cpu, b7) =>
                match deU64 b7 with
                | some (memory, b8) =>
                  match deU64 b8 with
                  | some (virtual_memory, b9) =>
                    match deU64 b9 with
                    | some (total_written_bytes, b10) =>
                      match deU64 b10 with
                      | some (written_bytes, b11) =>
                        match deU64 b11 with
                        | some (total_read_bytes, b12) =>
                          match deU64 b12 with
                          | some (read_bytes, b13) =>
                            some ({ job_id, pid, cmd_args, state, start, end_,
                                    cpu, memory, virtual_memory,
                                    total_written_bytes, written_bytes,
                                    total_read_bytes, read_bytes }, b13)
                          | none => none
                        | none => none
                      | none => none
                    | none => none
                  | none => none
                | none => none
              | none => none
            | none => none
          | none => none
        | none => none
      | none => none
    | none => none
  | none => none

/-- `struct LogLine` (runner.rs) as serialised: `ts`, `job_id`, `pid`,
`line`, `is_stderr` in declaration order. -/
structure LogLineWire where
  ts : DateTimeWire
  job_id : JobId
  pid : Pid
  line : Str
  is_stderr : Bool
deriving DecidableEq, Repr

/-- Serialisation of `LogLine`. -/
def serLogLine (l : LogLineWire) : Bytes :=
  serDateTime l.ts ++ serU32 l.job_id ++ serU32 l.pid ++ serStr l.line
    ++ serBool l.is_stderr

/-- Decoding of `LogLine`. -/
def deLogLine (b : Bytes) : Option (LogLineWire × Bytes) :=
  match deDateTime b with
  | some (ts, b1) =>
    match deU32 b1 with
    | some (job_id, b2) =>
      match deU32 b2 with
      | some (pid, b3) =>
        match deStr b3 with
        | some (line, b4) =>
          match deBool b4 with
          | some (is_stderr, b5) =>
              some ({ ts, job_id, pid, line, is_stderr }, b5)
          | none => none
        | none => none
      | none => none
    | none => none
  | none => none

/-- `enum ExecCommand` (command.rs): `Run` 0, `Runat` 1, `Start` 2, `Up` 3. -/
inductive ExecCommand where
  | Run (args : List Str)
  | Runat (at_ : Str) (args : List Str)
  | Start (service : Str)
  | Up (group : Str)
deriving DecidableEq, Repr

/-- Serialisation of `ExecCommand`. -/
def serExecCommand : ExecCommand → Bytes
  | .Run args => serU32 0 ++ serList serStr args
  | .Runat at_ args => serU32 1 ++ serStr at_ ++ serList serStr args
  | .Start service => serU32 2 ++ serStr service
  | .Up group => serU32 3 ++ serStr group

/-- Decoding of `ExecCommand`. -/
def deExecCommand (b : Bytes) : Option (ExecCommand × Bytes) :=
  match deU32 b with
  | some (tag, rest) =>
      if tag = 0 then
        match deList deStr rest with
        | some (args, rest') => some (ExecCommand.Run args, rest')
        | none => none
      else if tag = 1 then
        match deStr rest with
        | some (at_, rest') =>
            match deList deStr rest' with
            | some (args, rest'') => some (ExecCommand.Runat at_ args, rest'')
            | none => none
        | none => none
      else if tag = 2 then
        match deStr rest with
        | some (service, rest') => some (ExecCommand.Start service, rest')
        | none => none
      else if tag = 3 then
        match deStr rest with
        | some (group, rest') => some (ExecCommand.Up group, rest')
        | none => none
      else none
  | none => none

/-- `enum CliCommand` (command.rs): `Down` 0, `Stop` 1, `Ps` 2, `Jobs` 3,
`Logs` 4, `Exit` 5. -/
inductive CliCommand where
  | Down (group : Str)
  | Stop (job_id : JobId)
  | Ps
  | Jobs
  | Logs (job_or_service : Option Str)
  | Exit
deriving DecidableEq, Repr

/-- Serialisation of `CliCommand`. -/
def serCliCommand : CliCommand → Bytes
  | .Down group => serU32 0 ++ serStr group
  | .Stop job_id => serU32 1 ++ serU32 job_id
  | .Ps => serU32 2
  | .Jobs => serU32 3
  | .Logs j => serU32 4 ++ serOpt serStr j
  | .Exit => serU32 5

/-- Decoding of `CliCommand`. -/
def deCliCommand (b : Bytes) : Option (CliCommand × Bytes) :=
  match deU32 b with
  | some (tag, rest) =>
      if tag = 0 then
        match deStr rest with
        | some (group, rest') => some (CliCommand.Down group, rest')
        | none => none
      else if tag = 1 then
        match deU32 rest with
        | some (job_id, rest') => some (CliCommand.Stop job_id, rest')
        | none => none
      else if tag = 2 then some (CliCommand.Ps, rest)
      else if tag = 3 then some (CliCommand.Jobs, rest)
      else if tag = 4 then
        match deOpt deStr rest with
        | some (j, rest') => some (CliCommand.Logs j, rest')
        | none => none
      else if tag = 5 then some (CliCommand.Exit, rest)
      else none
  | none => none

/-- `enum Message` (command.rs): `Connect` 0, `ExecCommand` 1, `CliCommand` 2,
`PsInfo` 3, `JobInfo` 4, `LogLine` 5, `Ok` 6, `JobsStarted` 7, `Err` 8. -/
inductive Message where
  | Connect
  | ExecCommand (cmd : ExecCommand)
  | CliCommand (cmd : CliCommand)
  | PsInfo (infos : List ProcInfoWire)
  | JobInfo (jobs : List Job)
  | LogLine (line : LogLineWire)
  | Ok
  | JobsStarted (ids : List JobId)
  | Err (msg : Str)
deriving DecidableEq, Repr

/-- `bincode::serialize` of a `Message`. -/
def serMessage : Message → Bytes
  | .Connect => serU32 0
  | .ExecCommand cmd => serU32 1 ++ serExecCommand cmd
  | .CliCommand cmd => serU32 2 ++ serCliCommand cmd
  | .PsInfo infos => serU32 3 ++ serList serProcInfo infos
  | .JobInfo jobs => serU32 4 ++ serList serJob jobs
  | .LogLine line => serU32 5 ++ serLogLine line
  | .Ok => serU32 6
  | .JobsStarted ids => serU32 7 ++ serList serU32 ids
  | .Err msg => serU32 8 ++ serStr msg

/-- `bincode::deserialize` of a `Message` (variant dispatch on the tag). -/
def deMessage (b : Bytes) : Option (Message × Bytes) :=
  match deU32 b with
  | some (tag, rest) =>
      if tag = 0 then some (Message.Connect, rest)
      else if tag = 1 then
        match deExecCommand rest with
        | some (cmd, rest') => some (Message.ExecCommand cmd, rest')
        | none => none
      else if tag = 2 then
        match deCliCommand rest with
        | some (cmd, rest') => some (Message.CliCommand cmd, rest')
        | none => none
      else if tag = 3 then
        match deList deProcInfo rest with
        | some (infos, rest') => some (Message.PsInfo infos, rest')
        | none => none
      else if tag = 4 then
        match deList deJob rest with
        | some (jobs, rest') => some (Message.JobInfo jobs, rest')
        | none => none
      else if tag = 5 then
        match deLogLine rest with
        | some (line, rest') => some (Message.LogLine line, rest')
        | none => none
      else if tag = 6 then some (Message.Ok, rest)
      else if tag = 7 then
        match deList deU32 rest with
        | some (ids, rest') => some (Message.JobsStarted ids, rest')
        | none => none
      else if tag = 8 then
        match deStr rest with
        | some (msg, rest') => some (Message.Err msg, rest')
        | none => none
      else none
  | none => none

/-- `SocketExt::write_serde` (ipc.rs): serialise, then write
`bytes.len() as u32` little-endian (Rust `as` truncates modulo 2^32) followed
by the body. -/
def write_serde (m : Message) : Bytes :=
  let bytes := serMessage m
  serU32 (bytes.length % 4294967296) ++ bytes

/-- `SocketExt::read_serde` (ipc.rs): read a little-endian `u32` size, read
exactly that many bytes (failing like `read_exact` when the stream is
shorter), deserialise the body; the rest of the stream remains. -/
def read_serde (stream : Bytes) : Option (Message × Bytes) :=
  match deU32 stream with
  | some (size, rest) =>
      if size ≤ rest.length then
        match deMessage (rest.take size) with
        | some (m, _) => some (m, rest.drop size)
        | none => none
      else none
  | none => none

/-! ### Well-formedness of wire values

Rust values carry machine integers; the Lean model uses `Nat`/`Int`, so the
range constraints guaranteed by the Rust types are tracked explicitly. -/

/-- A `u32` value. -/
def wfU32 (n : Nat) : Bool := decide (n < 4294967296)

/-- A `u64` value (also: sequence lengths, which Rust bounds by `usize`). -/
def wfU64 (n : Nat) : Bool := decide (n < 18446744073709551616)

/-- An `i32` value. -/
def wfI32 (i : Int) : Bool :=
  decide (-2147483648 ≤ i) && decide (i < 2147483648)

/-- A `String`. -/
def wfStr (s : Str) : Bool := wfU64 s.length

/-- A `Vec` with well-formed elements. -/
def wfList {α : Type} (p : α → Bool) (xs : List α) : Bool :=
  wfU64 xs.length && xs.all p

/-- A wire timestamp. -/
def wfDateTime (d : DateTimeWire) : Bool := wfStr d.rfc3339

/-- A `RestartInfo`. -/
def wfRestartInfo (ri : RestartInfo) : Bool := wfU64 ri.wait_time

/-- A `JobType`. -/
def wfJobType : JobType → Bool
  | .Shell => true
  | .Service name => wfStr name
  | .Cron expr => wfStr expr

/-- A `JobInfo`. -/
def wfJobInfo (j : JobInfo) : Bool :=
  wfJobType j.job_type && wfList wfStr j.args && j.entrypoint.all wfStr
    && wfRestartInfo j.restart

/-- A `Job`. -/
def wfJob (j : Job) : Bool := wfU32 j.id && wfJobInfo j.info

/-- A `ProcStatus`. -/
def wfProcStatus : ProcStatus → Bool
  | .ExitErr code => wfI32 code
  | .Unknown msg => wfStr msg
  | _ => true

/-- A wire `ProcInfo`. -/
def wfProcInfo (p : ProcInfoWire) : Bool :=
  wfU32 p.job_id && wfU32 p.pid && wfList wfStr p.cmd_args
    && wfProcStatus p.state && wfDateTime p.start && p.end_.all wfDateTime
    && wfU32 p.cpu && wfU64 p.memory && wfU64 p.virtual_memory
    && wfU64 p.total_written_bytes && wfU64 p.written_bytes
    && wfU64 p.total_read_bytes && wfU64 p.read_bytes

/-- A wire `LogLine`. -/
def wfLogLine (l : LogLineWire) : Bool :=
  wfDateTime l.ts && wfU32 l.job_id && wfU32 l.pid && wfStr l.line

/-- An `ExecCommand`. -/
def wfExecCommand : ExecCommand → Bool
  | .Run args => wfList wfStr args
  | .Runat at_ args => wfStr at_ && wfList wfStr args
  | .Start service => wfStr service
  | .Up group => wfStr group

/-- A `CliCommand`. -/
def wfCliCommand : CliCommand → Bool
  | .Down group => wfStr group
  | .Stop job_id => wfU32 job_id
  | .Ps => true
  | .Jobs => true
  | .Logs j => j.all wfStr
  | .Exit => true

/-- A `Message`. -/
def wfMessage : Message → Bool
  | .Connect => true
  | .ExecCommand cmd => wfExecCommand cmd
  | .CliCommand cmd => wfCliCommand cmd
  | .PsInfo infos => wfList wfProcInfo infos
  | .JobInfo jobs => wfList wfJob jobs
  | .LogLine line => wfLogLine line
  | .Ok => true
  | .JobsStarted ids => wfList wfU32 ids
  | .Err msg => wfStr msg

/-! ### Round-trip lemmas for the wire combinators -/

/-- Decoding after encoding a `u32`. -/
theorem deU32_serU32 (n : Nat) (h : n < 4294967296) (r : Bytes) :
    deU32 (serU32 n ++ r) = some (n, r) := by
  simp only [serU32, List.cons_append, List.nil_append, deU32,
    Option.some.injEq, Prod.mk.injEq, and_true]
  omega

/-- Decoding after encoding a `u64`. -/
theorem deU64_serU64 (n : Nat) (h : n < 18446744073709551616) (r : Bytes) :
    deU64 (serU64 n ++ r) = some (n, r) := by
  simp only [serU64, List.cons_append, List.nil_append, deU64,
    Option.some.injEq, Prod.mk.injEq, and_true]
  omega

/-- Decoding after encoding an `i32`. -/
theorem deI32_serI32 (i : Int) (h1 : -2147483648 ≤ i) (h2 : i < 2147483648)
    (r : Bytes) : deI32 (serI32 i ++ r) = some (i, r) := by
  have hn : (i % 4294967296).toNat < 4294967296 := by omega
  rw [serI32, deI32, deU32_serU32 _ hn]
  simp only [Option.some.injEq, Prod.mk.injEq, and_true]
  split <;> omega

/-- Decoding after encoding a `bool`. -/
theorem deBool_serBool (b : Bool) (r : Bytes) :
    deBool (serBool b ++ r) = some (b, r) := by
  cases b <;> simp [serBool, deBool]

/-- Decoding after encoding a string. -/
theorem deStr_serStr (s : Str) (h : s.length < 18446744073709551616)
    (r : Bytes) : deStr (serStr s ++ r) = some (s, r) := by
  rw [serStr, deStr, List.append_assoc, deU64_serU64 _ h]
  simp [List.take_left, List.drop_left]

/-- Decoding after encoding a wire timestamp. -/
theorem deDateTime_serDateTime (d : DateTimeWire)
    (h : d.rfc3339.length < 18446744073709551616) (r : Bytes) :
    deDateTime (serDateTime d ++ r) = some (d, r) := by
  rw [serDateTime, deDateTime, deStr_serStr _ h]

/-- Decoding after encoding an `Option`. -/
theorem deOpt_serOpt {α : Type} (de : Bytes → Option (α × Bytes))
    (ser : α → Bytes) (o : Option α)
    (H : ∀ x, o = some x → ∀ r, de (ser x ++ r) = some (x, r)) (r : Bytes) :
    deOpt de (serOpt ser o ++ r) = some (o, r) := by
  cases o with
  | none => simp [serOpt, deOpt]
  | some x => simp [serOpt, deOpt, H x rfl]

/-- Decoding a fixed element count after encoding those elements. -/
theorem deListN_flatten {α : Type} (de : Bytes → Option (α × Bytes))
    (ser : α → Bytes) (xs : List α)
    (H : ∀ x ∈ xs, ∀ r, de (ser x ++ r) = some (x, r)) (r : Bytes) :
    deListN de xs.length ((xs.map ser).flatten ++ r) = some (xs, r) := by
  induction xs with
  | nil => simp [deListN]
  | cons x xs ih =>
      have hx := H x (List.mem_cons_self x xs)
      have ih' := ih (fun y hy s => H y (List.mem_cons_of_mem x hy) s)
      simp only [List.map_cons, List.flatten_cons, List.length_cons,
        List.append_assoc, deListN, hx, ih']

/-- Decoding after encoding a `Vec`. -/
theorem deList_serList {α : Type} (de : Bytes → Option (α × Bytes))
    (ser : α → Bytes) (xs : List α) (h : xs.length < 18446744073709551616)
    (H : ∀ x ∈ xs, ∀ r, de (ser x ++ r) = some (x, r)) (r : Bytes) :
    deList de (serList ser xs ++ r) = some (xs, r) := by
  rw [serList, deList, List.append_assoc, deU64_serU64 _ h]
  exact deListN_flatten de ser xs H r

/-- String round-trip from well-formedness. -/
theorem deStr_of_wf {s : Str} (h : wfStr s = true) (r : Bytes) :
    deStr (serStr s ++ r) = some (s, r) :=
  deStr_serStr s (by simpa [wfStr, wfU64] using h) r

/-- `Vec<String>` round-trip from well-formedness. -/
theorem deList_serStr (xs : List Str) (h : wfList wfStr xs = true)
    (r : Bytes) : deList deStr (serList serStr xs ++ r) = some (xs, r) := by
  simp only [wfList, Bool.and_eq_true, wfU64, decide_eq_true_eq,
    List.all_eq_true] at h
  exact deList_serList _ _ _ h.1 (fun x hx s => deStr_of_wf (h.2 x hx) s) r

/-- `Option<String>` round-trip from well-formedness. -/
theorem deOpt_serStr (o : Option Str) (h : o.all wfStr = true) (r : Bytes) :
    deOpt deStr (serOpt serStr o ++ r) = some (o, r) := by
  apply deOpt_serOpt
  intro x hx s
  exact deStr_of_wf (by cases o <;> simp_all [Option.all]) s

/-- `Restart` round-trip. -/
theorem deRestart_serRestart (p : Restart) (r : Bytes) :
    deRestart (serRestart p ++ r) = some (p, r) := by
  cases p <;>
    simp [serRestart, deRestart, deU32_serU32 0 (by omega),
      deU32_serU32 1 (by omega), deU32_serU32 2 (by omega)]

/-- `RestartInfo` round-trip. -/
theorem deRestartInfo_serRestartInfo (ri : RestartInfo)
    (h : wfRestartInfo ri = true) (r : Bytes) :
    deRestartInfo (serRestartInfo ri ++ r) = some (ri, r) := by
  simp only [wfRestartInfo, wfU64, decide_eq_true_eq] at h
  simp [serRestartInfo, deRestartInfo, List.append_assoc,
    deRestart_serRestart, deU64_serU64 _ h]

/-- `JobType` round-trip. -/
theorem deJobType_serJobType (t : JobType) (h : wfJobType t = true)
    (r : Bytes) : deJobType (serJobType t ++ r) = some (t, r) := by
  cases t with
  | Shell => simp [serJobType, deJobType, deU32_serU32 0 (by omega)]
  | Service name =>
      simp only [wfJobType] at h
      simp [serJobType, deJobType, List.append_assoc,
        deU32_serU32 1 (by omega), deStr_of_wf h]
  | Cron expr =>
      simp only [wfJobType] at h
      simp [serJobType, deJobType, List.append_assoc,
        deU32_serU32 2 (by omega), deStr_of_wf h]

/-- `JobInfo` round-trip. -/
theorem deJobInfo_serJobInfo (j : JobInfo) (h : wfJobInfo j = true)
    (r : Bytes) : deJobInfo (serJobInfo j ++ r) = some (j, r) := by
  simp only [wfJobInfo, Bool.and_eq_true] at h
  obtain ⟨⟨⟨h1, h2⟩, h3⟩, h4⟩ := h
  simp [serJobInfo, deJobInfo, List.append_assoc,
    deJobType_serJobType _ h1, deList_serStr _ h2, deOpt_serStr _ h3,
    deRestartInfo_serRestartInfo _ h4]

/-- `Job` round-trip. -/
theorem deJob_serJob (j : Job) (h : wfJob j = true) (r : Bytes) :
    deJob (serJob j ++ r) = some (j, r) := by
  simp only [wfJob, Bool.and_eq_true, wfU32, decide_eq_true_eq] at h
  simp [serJob, deJob, List.append_assoc, deU32_serU32 _ h.1,
    deJobInfo_serJobInfo _ h.2]

/-- `ProcStatus` round-trip. -/
theorem deProcStatus_serProcStatus (s : ProcStatus)
    (h : wfProcStatus s = true) (r : Bytes) :
    deProcStatus (serProcStatus s ++ r) = some (s, r) := by
  cases s with
  | Spawned => simp [serProcStatus, deProcStatus, deU32_serU32 0 (by omega)]
  | Running => simp [serProcStatus, deProcStatus, deU32_serU32 1 (by omega)]
  | ExitOk => simp [serProcStatus, deProcStatus, deU32_serU32 2 (by omega)]
  | ExitErr code =>
      simp only [wfProcStatus, wfI32, Bool.and_eq_true, decide_eq_true_eq] at h
      simp [serProcStatus, deProcStatus, List.append_assoc,
        deU32_serU32 3 (by omega), deI32_serI32 _ h.1 h.2]
  | Unknown msg =>
      simp only [wfProcStatus] at h
      simp [serProcStatus, deProcStatus, List.append_assoc,
        deU32_serU32 4 (by omega), deStr_of_wf h]

/-- Wire timestamp round-trip from well-formedness. -/
theorem deDateTime_of_wf {d : DateTimeWire} (h : wfDateTime d = true)
    (r : Bytes) : deDateTime (serDateTime d ++ r) = some (d, r) :=
  deDateTime_serDateTime d (by simpa [wfDateTime, wfStr, wfU64] using h) r

/-- `Option<DateTime>` round-trip from well-formedness. -/
theorem deOpt_serDateTime (o : Option DateTimeWire)
    (h : o.all wfDateTime = true) (r : Bytes) :
    deOpt deDateTime (serOpt serDateTime o ++ r) = some (o, r) := by
  apply deOpt_serOpt
  intro x hx s
  exact deDateTime_of_wf (by cases o <;> simp_all [Option.all]) s

/-- Wire `ProcInfo` round-trip. -/
theorem deProcInfo_serProcInfo (p : ProcInfoWire) (h : wfProcInfo p = true)
    (r : Bytes) : deProcInfo (serProcInfo p ++ r) = some (p, r) := by
  simp only [wfProcInfo, Bool.and_eq_true, wfU32, wfU64,
    decide_eq_true_eq] at h
  obtain ⟨⟨⟨⟨⟨⟨⟨⟨⟨⟨⟨⟨h1, h2⟩, h3⟩, h4⟩, h5⟩, h6⟩, h7⟩, h8⟩, h9⟩, h10⟩,
    h11⟩, h12⟩, h13⟩ := h
  simp [serProcInfo, deProcInfo, List.append_assoc,
    deU32_serU32 _ h1, deU32_serU32 _ h2, deList_serStr _ h3,
    deProcStatus_serProcStatus _ h4, deDateTime_of_wf h5,
    deOpt_serDateTime _ h6, deU32_serU32 _ h7, deU64_serU64 _ h8,
    deU64_serU64 _ h9, deU64_serU64 _ h10, deU64_serU64 _ h11,
    deU64_serU64 _ h12, deU64_serU64 _ h13]

/-- Wire `LogLine` round-trip. -/
theorem deLogLine_serLogLine (l : LogLineWire) (h : wfLogLine l = true)
    (r : Bytes) : deLogLine (serLogLine l ++ r) = some (l, r) := by
  simp only [wfLogLine, Bool.and_eq_true, wfU32, decide_eq_true_eq] at h
  obtain ⟨⟨⟨h1, h2⟩, h3⟩, h4⟩ := h
  simp [serLogLine, deLogLine, List.append_assoc, deDateTime_of_wf h1,
    deU32_serU32 _ h2, deU32_serU32 _ h3, deStr_of_wf h4, deBool_serBool]

/-- `ExecCommand` round-trip. -/
theorem deExecCommand_serExecCommand (c : ExecCommand)
    (h : wfExecCommand c = true) (r : Bytes) :
    deExecCommand (serExecCommand c ++ r) = some (c, r) := by
  cases c with
  | Run args =>
      simp only [wfExecCommand] at h
      simp [serExecCommand, deExecCommand, List.append_assoc,
        deU32_serU32 0 (by omega), deList_serStr _ h]
  | Runat at_ args =>
      simp only [wfExecCommand, Bool.and_eq_true] at h
      simp [serExecCommand, deExecCommand, List.append_assoc,
        deU32_serU32 1 (by omega), deStr_of_wf h.1, deList_serStr _ h.2]
  | Start service =>
      simp only [wfExecCommand] at h
      simp [serExecCommand, deExecCommand, List.append_assoc,
        deU32_serU32 2 (by omega), deStr_of_wf h]
  | Up group =>
      simp only [wfExecCommand] at h
      simp [serExecCommand, deExecCommand, List.append_assoc,
        deU32_serU32 3 (by omega), deStr_of_wf h]

/-- `CliCommand` round-trip. -/
theorem deCliCommand_serCliCommand (c : CliCommand)
    (h : wfCliCommand c = true) (r : Bytes) :
    deCliCommand (serCliCommand c ++ r) = some (c, r) := by
  cases c with
  | Down group =>
      simp only [wfCliCommand] at h
      simp [serCliCommand, deCliCommand, List.append_assoc,
        deU32_serU32 0 (by omega), deStr_of_wf h]
  | Stop job_id =>
      simp only [wfCliCommand, wfU32, decide_eq_true_eq] at h
      simp [serCliCommand, deCliCommand, List.append_assoc,
        deU32_serU32 1 (by omega), deU32_serU32 _ h]
  | Ps => simp [serCliCommand, deCliCommand, deU32_serU32 2 (by omega)]
  | Jobs => simp [serCliCommand, deCliCommand, deU32_serU32 3 (by omega)]
  | Logs j =>
      simp only [wfCliCommand] at h
      simp [serCliCommand, deCliCommand, List.append_assoc,
        deU32_serU32 4 (by omega), deOpt_serStr _ h]
  | Exit => simp [serCliCommand, deCliCommand, deU32_serU32 5 (by omega)]

/-- `Message` round-trip (body serialisation). -/
theorem deMessage_serMessage (m : Message) (h : wfMessage m = true)
    (r : Bytes) : deMessage (serMessage m ++ r) = some (m, r) := by
  cases m with
  | Connect => simp [serMessage, deMessage, deU32_serU32 0 (by omega)]
  | ExecCommand cmd =>
      simp only [wfMessage] at h
      simp [serMessage, deMessage, List.append_assoc,
        deU32_serU32 1 (by omega), deExecCommand_serExecCommand _ h]
  | CliCommand cmd =>
      simp only [wfMessage] at h
      simp [serMessage, deMessage, List.append_assoc,
        deU32_serU32 2 (by omega), deCliCommand_serCliCommand _ h]
  | PsInfo infos =>
      simp only [wfMessage, wfList, Bool.and_eq_true, wfU64,
        decide_eq_true_eq, List.all_eq_true] at h
      simp [serMessage, deMessage, List.append_assoc,
        deU32_serU32 3 (by omega),
        deList_serList _ _ _ h.1
          (fun x hx s => deProcInfo_serProcInfo x (h.2 x hx) s)]
  | JobInfo jobs =>
      simp only [wfMessage, wfList, Bool.and_eq_true, wfU64,
        decide_eq_true_eq, List.all_eq_true] at h
      simp [serMessage, deMessage, List.append_assoc,
        deU32_serU32 4 (by omega),
        deList_serList _ _ _ h.1 (fun x hx s => deJob_serJob x (h.2 x hx) s)]
  | LogLine line =>
      simp only [wfMessage] at h
      simp [serMessage, deMessage, List.append_assoc,
        deU32_serU32 5 (by omega), deLogLine_serLogLine _ h]
  | Ok => simp [serMessage, deMessage, deU32_serU32 6 (by omega)]
  | JobsStarted ids =>
      simp only [wfMessage, wfList, Bool.and_eq_true, wfU64, wfU32,
        decide_eq_true_eq, List.all_eq_true] at h
      simp [serMessage, deMessage, List.append_assoc,
        deU32_serU32 7 (by omega),
        deList_serList _ _ _ h.1 (fun x hx s => deU32_serU32 x (h.2 x hx) s)]
  | Err msg =>
      simp only [wfMessage] at h
      simp [serMessage, deMessage, List.append_assoc,
        deU32_serU32 8 (by omega), deStr_of_wf h]

/-! ## Claim theorems -/

/-- C7: writing any well-formed `Message` through the framing layer (`u32`
little-endian length prefix followed by the `bincode` body,
`SocketExt::write_serde`) and reading it back (`SocketExt::read_serde`)
yields the same `Message` and leaves the rest of the stream untouched.  The
well-formedness hypothesis records the machine-integer ranges guaranteed by
the Rust types; the length bound matches the `u32` length prefix
(`bytes.len() as u32`). -/
theorem message_framing_roundtrip (m : Message) (hwf : wfMessage m = true)
    (hlen : (serMessage m).length < 4294967296) (extra : Bytes) :
    read_serde (write_serde m ++ extra) = some (m, extra) := by
  have hbody : deMessage (serMessage m) = some (m, []) := by
    simpa using deMessage_serMessage m hwf []
  simp only [write_serde, read_serde, List.append_assoc]
  rw [Nat.mod_eq_of_lt hlen, deU32_serU32 _ hlen]
  simp [List.take_left, List.drop_left, hbody]

/-- Witness for C7 at a concrete message with a nonempty payload. -/
theorem message_framing_roundtrip_witness :
    wfMessage (Message.JobsStarted [1, 2]) = true ∧
    (serMessage (Message.JobsStarted [1, 2])).length < 4294967296 ∧
    read_serde (write_serde (Message.JobsStarted [1, 2]) ++ [9]) =
      some (Message.JobsStarted [1, 2], [9]) :=
  ⟨by decide, by decide,
    message_framing_roundtrip (Message.JobsStarted [1, 2]) (by decide)
      (by decide) [9]⟩

/-- A freshly spawned Runner (end timestamp unset) whose child has just
exited with code 0, before the Watcher has processed the termination. -/
def fresh_runner : Runner :=
  { info := { job_id := 1, pid := 100, cmd_args := [[108, 115]],
              state := ProcStatus.Spawned, start := 0, end_ := none },
    restart_info := { policy := Restart.Never, wait_time := 50 },
    user_terminated := false }

/-- C1 counterexample: `update_proc_state` (reachable from `Ps`, `Start` and
`Stop` via `is_running`) applied to a Runner whose child has exited but whose
termination the Watcher has not yet processed yields `state = ExitOk` with
`end` still unset — the claimed invariant does not hold at that moment. -/
theorem update_proc_state_exited_end_unset :
    (fresh_runner.update_proc_state
        (Except.ok (some { code := some 0 }))).info.state.exited = true
    ∧ (fresh_runner.update_proc_state
        (Except.ok (some { code := some 0 }))).info.end_ = none := by
  constructor <;> rfl

/-- C1 (amended): `end` is set only by the Watcher — `update_proc_state`
never modifies it — and whenever the Watcher processes a termination it sets
`end`, so `state ∈ {ExitOk, ExitErr}` implies `end` is set for every Runner
the Watcher has handled; between the child's exit and the Watcher's handling,
however, `update_proc_state` can exhibit an exited state with `end` unset. -/
theorem end_ts_set_only_by_watcher :
    (∀ (r : Runner) (tw : TryWait),
      (r.update_proc_state tw).info.end_ = r.info.end_)
    ∧ (∀ (r : Runner) (ts : Time) (tw : TryWait),
        (child_watcher_step r ts tw).1.info.end_ = some ts
        ∧ ((child_watcher_step r ts tw).1.info.state.exited = true →
            ((child_watcher_step r ts tw).1.info.end_).isSome = true)) := by
  constructor
  · intro r tw
    rw [Runner.update_proc_state]
    split <;> rfl
  · intro r ts tw
    have hend : (child_watcher_step r ts tw).1.info.end_ = some ts := by
      rw [child_watcher_step]
      split <;> rfl
    exact ⟨hend, fun _ => by rw [hend]; rfl⟩

/-- Witness for C1's amended invariant at a concrete Runner handled by the
Watcher. -/
theorem end_ts_set_only_by_watcher_witness :
    (fresh_runner.update_proc_state (Except.ok none)).info.end_
      = fresh_runner.info.end_
    ∧ (child_watcher_step fresh_runner 7
        (Except.ok (some { code := some 0 }))).1.info.end_ = some 7 :=
  ⟨end_ts_set_only_by_watcher.1 fresh_runner (Except.ok none),
    (end_ts_set_only_by_watcher.2 fresh_runner 7
      (Except.ok (some { code := some 0 }))).1⟩

/-- A service Runner with restart policy `Always` whose run lasted 10 ms
(below the 50 ms back-off reset threshold). -/
def always_runner : Runner :=
  { info := { job_id := 1, pid := 7, cmd_args := [[106]],
              state := ProcStatus.Running, start := 0, end_ := none },
    restart_info := { policy := Restart.Always, wait_time := 50 },
    user_terminated := false }

/-- C2: divergence of the Watcher's respawn path from `Runner::restart_infos`
at a concrete terminated Runner: the watcher (dispatcher.rs 546-558) sleeps
and respawns with the *unchanged* `wait_time = 50`, while `restart_infos`
(runner.rs 222-248, never called by the watcher) computes the doubled
back-off `wait_time = 100` for the same Runner (short run, no reset). -/
theorem watcher_respawn_ignores_backoff :
    ((child_watcher_step always_runner 10
        (Except.ok (some { code := some 0 }))).2.map
          (fun j => j.restart_info.wait_time)) = some 50
    ∧ (((child_watcher_step always_runner 10
          (Except.ok (some { code := some 0 }))).1.restart_infos 10).map
            (fun j => j.restart_info.wait_time)) = some 100 := by
  constructor <;> rfl

/-- C3: the respawn decision, at both sites (`Runner::restart_infos` and the
inline copy in `child_watcher`): `Never` never respawns, `OnFailure` respawns
exactly when `state = ExitErr c` with `c > 0`, `Always` always respawns, and
`user_terminated` suppresses respawn regardless of policy (`restart_infos`
returns `none` and the watcher's respawn request is `none`). -/
theorem respawn_decision_characterisation (r : Runner) (now ts : Time)
    (tw : TryWait) :
    (child_watcher_respawn r = r.respawn_decision)
    ∧ ((r.restart_infos now).isSome = r.respawn_decision)
    ∧ (r.respawn_decision = true ↔
        (r.user_terminated = false ∧
          (r.restart_info.policy = Restart.Always ∨
            (r.restart_info.policy = Restart.OnFailure ∧
              ∃ c, r.info.state = ProcStatus.ExitErr c ∧ 0 < c))))
    ∧ (r.user_terminated = true →
        r.restart_infos now = none ∧ (child_watcher_step r ts tw).2 = none) := by
  refine ⟨rfl, ?_, ?_, ?_⟩
  · rw [Runner.restart_infos]
    split <;> simp_all
  · rw [Runner.respawn_decision]
    cases hu : r.user_terminated <;>
      cases hp : r.restart_info.policy <;>
        cases hs : r.info.state <;>
          simp_all
  · intro hu
    have hdec : r.respawn_decision = false := by
      rw [Runner.respawn_decision, hu]
      rfl
    constructor
    · rw [Runner.restart_infos, hdec]
      rfl
    · rw [child_watcher_step]
      have : child_watcher_respawn
          { r.update_proc_state tw with
            info := { (r.update_proc_state tw).info with end_ := some ts } } =
          false := by
        rw [child_watcher_respawn.eq_def, Runner.update_proc_state]
        split <;> simp [hu]
      simp [this]

/-- Witness for C3 at a user-terminated Runner with policy `Always`. -/
theorem respawn_decision_characterisation_witness :
    ({ always_runner with user_terminated := true } : Runner).restart_infos 0
      = none
    ∧ (child_watcher_step { always_runner with user_terminated := true } 0
        (Except.ok (some { code := some 0 }))).2 = none :=
  (respawn_decision_characterisation
    { always_runner with user_terminated := true } 0 0
    (Except.ok (some { code := some 0 }))).2.2.2 rfl

/-- C10: a child that terminates without an exit code (killed by a signal:
`try_wait` returns a status with `success() = false` and `code() = None`) is
recorded by `update_proc_state` as `ExitErr 0`; since the `OnFailure` respawn
condition requires `ExitErr c` with `c > 0`, neither `restart_infos` nor the
Watcher respawns such a Runner under policy `OnFailure`. -/
theorem signal_killed_exit_err_zero_no_respawn (r : Runner) (ts : Time)
    (hend : r.info.end_ = none)
    (hpol : r.restart_info.policy = Restart.OnFailure) :
    (r.update_proc_state (Except.ok (some { code := none }))).info.state
      = ProcStatus.ExitErr 0
    ∧ ((r.update_proc_state (Except.ok (some { code := none }))).restart_infos
        ts) = none
    ∧ (child_watcher_step r ts (Except.ok (some { code := none }))).2
      = none := by
  have hstate : (r.update_proc_state
      (Except.ok (some { code := none }))).info.state = ProcStatus.ExitErr 0 := by
    rw [Runner.update_proc_state, if_pos hend]
    rfl
  refine ⟨hstate, ?_, ?_⟩
  · have hdec : (r.update_proc_state
        (Except.ok (some { code := none }))).respawn_decision = false := by
      rw [Runner.respawn_decision, hstate]
      have : (r.update_proc_state
          (Except.ok (some { code := none }))).restart_info.policy
          = Restart.OnFailure := by
        rw [Runner.update_proc_state, if_pos hend]
        exact hpol
      rw [this]
      simp
    rw [Runner.restart_infos, hdec]
    rfl
  · rw [child_watcher_step]
    have : child_watcher_respawn
        { r.update_proc_state (Except.ok (some { code := none })) with
          info := { (r.update_proc_state
            (Except.ok (some { code := none }))).info with end_ := some ts } }
        = false := by
      rw [child_watcher_respawn.eq_def]
      have hpol' : (r.update_proc_state
          (Except.ok (some { code := none }))).restart_info.policy
          = Restart.OnFailure := by
        rw [Runner.update_proc_state, if_pos hend]
        exact hpol
      simp [hstate, hpol']
    simp [this]

/-- Witness for C10 at a concrete `OnFailure` Runner. -/
theorem signal_killed_exit_err_zero_no_respawn_witness :
    ({ always_runner with
        restart_info := { policy := Restart.OnFailure, wait_time := 50 } }
          : Runner).info.end_ = none
    ∧ (child_watcher_step
        { always_runner with
          restart_info := { policy := Restart.OnFailure, wait_time := 50 } } 3
        (Except.ok (some { code := none }))).2 = none :=
  ⟨rfl,
    (signal_killed_exit_err_zero_no_respawn
      { always_runner with
        restart_info := { policy := Restart.OnFailure, wait_time := 50 } } 3
      rfl rfl).2.2⟩

/-- Under timestamps that are non-decreasing in buffer order, the
`skip_while` of `lines_since` coincides with filtering the entries strictly
newer than the cursor. -/
theorem dropWhile_eq_filter_of_sorted (ts : Time) (l : List LogLine)
    (h : l.Pairwise (fun a c => a.ts ≤ c.ts)) :
    l.dropWhile (fun e => decide (e.ts ≤ ts))
      = l.filter (fun e => decide (ts < e.ts)) := by
  induction l with
  | nil => simp
  | cons a l ih =>
      rcases List.pairwise_cons.mp h with ⟨ha, hl⟩
      by_cases hats : a.ts ≤ ts
      · simp [List.dropWhile, List.filter, hats, not_lt.mpr hats, ih hl]
      · have hlt : ts < a.ts := not_le.mp hats
        have hall : ∀ e ∈ l, (fun e => decide (ts < e.ts)) e = true := by
          intro e he
          simpa using lt_of_lt_of_le hlt (ha e he)
        simp [List.dropWhile, List.filter, hats, hlt,
          List.filter_eq_self.mpr hall]

/-- The value reported by `getLast?` is an element of the list. -/
theorem mem_of_getLast?_eq_some {α : Type} {l : List α} {x : α}
    (hx : l.getLast? = some x) : x ∈ l := by
  have hne : l ≠ [] := by
    intro hnil
    rw [hnil] at hx
    simp at hx
  rw [List.getLast?_eq_getLast_of_ne_nil hne, Option.some.injEq] at hx
  rw [← hx]
  exact List.getLast_mem hne

/-- The last entry of a buffer with non-decreasing timestamps carries the
maximal timestamp. -/
theorem le_getLast_ts_of_sorted (l : List LogLine)
    (h : l.Pairwise (fun a c => a.ts ≤ c.ts)) (x : LogLine)
    (hx : l.getLast? = some x) : ∀ e ∈ l, e.ts ≤ x.ts := by
  induction l with
  | nil => simp at hx
  | cons a l ih =>
      rcases List.pairwise_cons.mp h with ⟨ha, hl⟩
      intro e he
      cases l with
      | nil =>
          have hax : a = x := by simpa using hx
          have hea : e = a := by simpa using he
          rw [hea, ← hax]
      | cons b l' =>
          have hx' : (b :: l').getLast? = some x := by
            rw [List.getLast?_cons_cons] at hx
            exact hx
          rcases List.mem_cons.mp he with rfl | he'
          · exact ha x (mem_of_getLast?_eq_some hx')
          · exact ih hl hx' e he'

/-- Buffer with out-of-order timestamps (possible: the two reader threads
take their timestamps before acquiring the buffer lock). -/
def unsorted_buffer : OutputBuffer :=
  { lines := [{ ts := 5, job_id := 1, pid := 2, line := [], is_stderr := false },
              { ts := 1, job_id := 1, pid := 2, line := [], is_stderr := true }],
    max_len := some 200 }

/-- C5 counterexample: on a buffer holding timestamps `[5, 1]` with cursor 3,
`lines_since` yields *both* entries (`skip_while` stops at the first newer
entry) while the entries strictly newer than the cursor are just the first,
and it moves the cursor to 1 — the back entry — which is not the newest
timestamp present. -/
theorem lines_since_not_filter_unsorted :
    (unsorted_buffer.lines_since 3).1.length = 2
    ∧ (unsorted_buffer.lines.filter (fun e => decide (3 < e.ts))).length = 1
    ∧ (unsorted_buffer.lines_since 3).2 = 1
    ∧ ∃ e ∈ unsorted_buffer.lines, (unsorted_buffer.lines_since 3).2 < e.ts := by
  refine ⟨rfl, rfl, rfl, ?_⟩
  exact ⟨{ ts := 5, job_id := 1, pid := 2, line := [], is_stderr := false },
    by constructor <;> decide⟩

/-- C5 (amended): for buffers whose timestamps are non-decreasing in buffer
order — which buffer order is meant to reflect — `lines_since ts` yields
exactly the entries with timestamp strictly greater than `ts` (in buffer
order) and sets the caller's cursor to the newest timestamp present in the
buffer; when the buffer is empty the cursor is unchanged. -/
theorem lines_since_sorted_spec (b : OutputBuffer) (ts : Time)
    (h : b.lines.Pairwise (fun a c => a.ts ≤ c.ts)) :
    (b.lines_since ts).1 = b.lines.filter (fun e => decide (ts < e.ts))
    ∧ (b.lines = [] → (b.lines_since ts).2 = ts)
    ∧ (∀ e ∈ b.lines, e.ts ≤ (b.lines_since ts).2)
    ∧ (b.lines ≠ [] → ∃ e ∈ b.lines, (b.lines_since ts).2 = e.ts) := by
  refine ⟨?_, ?_, ?_, ?_⟩
  · rw [OutputBuffer.lines_since]
    exact dropWhile_eq_filter_of_sorted ts b.lines h
  · intro hnil
    rw [OutputBuffer.lines_since]
    simp [hnil]
  · intro e he
    rw [OutputBuffer.lines_since]
    rcases hx : b.lines.getLast? with _ | x
    · have hnil : b.lines = [] := List.getLast?_eq_none_iff.mp hx
      rw [hnil] at he
      simp at he
    · simpa [hx] using le_getLast_ts_of_sorted b.lines h x hx e he
  · intro hne
    rcases hx : b.lines.getLast? with _ | x
    · exact absurd (List.getLast?_eq_none_iff.mp hx) hne
    · exact ⟨x, mem_of_getLast?_eq_some hx,
        by rw [OutputBuffer.lines_since]; simp [hx]⟩

/-- A buffer whose timestamps are non-decreasing in buffer order. -/
def sorted_buffer : OutputBuffer :=
  { lines := [{ ts := 1, job_id := 1, pid := 2, line := [], is_stderr := false },
              { ts := 5, job_id := 1, pid := 2, line := [], is_stderr := true }],
    max_len := some 200 }

/-- Witness for C5 at a sorted two-entry buffer with cursor 3. -/
theorem lines_since_sorted_spec_witness :
    sorted_buffer.lines.Pairwise (fun a c => a.ts ≤ c.ts)
    ∧ (sorted_buffer.lines_since 3).1
      = [{ ts := 5, job_id := 1, pid := 2, line := [], is_stderr := true }]
    ∧ (∀ e ∈ sorted_buffer.lines, e.ts ≤ (sorted_buffer.lines_since 3).2) := by
  have h := lines_since_sorted_spec sorted_buffer 3 (by decide)
  exact ⟨by decide, by rw [h.1]; rfl, h.2.2.1⟩

/-- C6: a bounded `OutputBuffer` (capacity `N`) never grows beyond `N` under
`push` — a fresh buffer is within the bound and `push` preserves it — and a
push performed at length exactly `N` pops the front (oldest) entry of the
extended queue while appending the new entry at the back; when the buffer is
nonempty that is `tail ++ [new]`, all other entries unchanged. -/
theorem push_bounded_evicts_oldest (b : OutputBuffer) (l : LogLine) (N : Nat)
    (h : b.max_len = some N) :
    ((OutputBuffer.new (some N)).lines.length ≤ N)
    ∧ (b.lines.length ≤ N → (b.push l).lines.length ≤ N)
    ∧ (b.lines.length = N → (b.push l).lines = (b.lines ++ [l]).tail)
    ∧ (b.lines.length = N → b.lines ≠ [] →
        (b.push l).lines = b.lines.tail ++ [l]) := by
  refine ⟨by simp [OutputBuffer.new], ?_, ?_, ?_⟩
  · intro hle
    rw [OutputBuffer.push, h]
    by_cases hlt : N < (b.lines ++ [l]).length
    · simp only [if_pos hlt]
      simp only [List.length_tail, List.length_append, List.length_singleton]
      omega
    · simp only [if_neg hlt]
      simp only [List.length_append, List.length_singleton] at hlt ⊢
      omega
  · intro heq
    rw [OutputBuffer.push, h]
    have hlt : N < b.lines.length + 1 := by omega
    simp [hlt]
  · intro heq hne
    rw [OutputBuffer.push, h]
    have hlt : N < b.lines.length + 1 := by omega
    simp [hlt, List.tail_append_singleton_of_ne_nil hne]

/-- Witness for C6 at a full two-entry buffer. -/
theorem push_bounded_evicts_oldest_witness :
    (({ lines := [{ ts := 1, job_id := 1, pid := 2, line := [],
                    is_stderr := false },
                  { ts := 2, job_id := 1, pid := 2, line := [],
                    is_stderr := false }],
        max_len := some 2 } : OutputBuffer).push
          { ts := 3, job_id := 1, pid := 2, line := [], is_stderr := false }).lines
      = [{ ts := 2, job_id := 1, pid := 2, line := [], is_stderr := false },
         { ts := 3, job_id := 1, pid := 2, line := [], is_stderr := false }] := by
  have h := push_bounded_evicts_oldest
    { lines := [{ ts := 1, job_id := 1, pid := 2, line := [],
                  is_stderr := false },
                { ts := 2, job_id := 1, pid := 2, line := [],
                  is_stderr := false }],
      max_len := some 2 }
    { ts := 3, job_id := 1, pid := 2, line := [], is_stderr := false } 2 rfl
  rw [h.2.2.2 rfl (by simp)]
  rfl

/-- Lookup after inserting the same key. -/
theorem mapLookup_mapInsert_self {α : Type} (k : Nat) (v : α)
    (l : List (Nat × α)) : mapLookup k (mapInsert k v l) = some v := by
  induction l with
  | nil => simp [mapInsert, mapLookup]
  | cons p l ih =>
      obtain ⟨k', v'⟩ := p
      by_cases hk : k = k'
      · simp [mapInsert, hk, mapLookup]
      · simp [mapInsert, hk, mapLookup, ih]

/-- Lookup after removing the same key. -/
theorem mapLookup_mapRemove_self {α : Type} (k : Nat) (l : List (Nat × α)) :
    mapLookup k (mapRemove k l) = none := by
  induction l with
  | nil => rfl
  | cons p l ih =>
      obtain ⟨k', v'⟩ := p
      by_cases hk : k' = k
      · simpa [mapRemove, List.filter_cons, hk] using ih
      · have hk' : ¬k = k' := fun h => hk h.symm
        simpa [mapRemove, List.filter_cons, hk, mapLookup, hk'] using ih

/-- Elements of `mapIdxFrom` by position. -/
theorem mapIdxFrom_getElem? {α β : Type} (f : Nat → α → β) (k i : Nat)
    (l : List α) : (mapIdxFrom f k l)[i]? = (l[i]?).map (f (k + i)) := by
  induction l generalizing k i with
  | nil => simp [mapIdxFrom]
  | cons a l ih =>
      cases i with
      | zero => simp [mapIdxFrom]
      | succ n =>
          have h1 : k + (n + 1) = (k + 1) + n := by omega
          simp only [mapIdxFrom, List.getElem?_cons_succ, ih (k + 1) n, h1]

/-- `update_proc_state` only touches the `state` field. -/
theorem update_proc_state_fields (r : Runner) (tw : TryWait) :
    (r.update_proc_state tw).info.pid = r.info.pid
    ∧ (r.update_proc_state tw).info.job_id = r.info.job_id
    ∧ (r.update_proc_state tw).user_terminated = r.user_terminated := by
  rw [Runner.update_proc_state]
  split <;> exact ⟨rfl, rfl, rfl⟩

/-- When every attempted kill succeeds, the stop loop aborts nowhere: every
Runner receives its per-iteration update, the collected pids are those of the
still-running children of the job, and no error is reported. -/
theorem stop_loop_ok (job_id : JobId) (tw : Nat → TryWait)
    (kill : Nat → Except Str Unit) (hkill : ∀ i, kill i = Except.ok ()) :
    ∀ (k : Nat) (l : List Runner),
      stop_loop job_id tw kill k l
        = (mapIdxFrom (fun i r => stop_update job_id (tw i) r) k l,
           (mapIdxFrom (fun i r => stop_kill job_id (tw i) r) k l).filterMap id,
           none) := by
  intro k l
  induction l generalizing k with
  | nil => rfl
  | cons r rest ih =>
      by_cases hjob : r.info.job_id = job_id
      · by_cases hex : (r.update_proc_state (tw k)).info.state.exited = true
        · simp [stop_loop, ih (k + 1), mapIdxFrom, stop_update, stop_kill,
            hjob, hex]
        · simp [stop_loop, ih (k + 1), mapIdxFrom, stop_update, stop_kill,
            hjob, hex, hkill k]
      · simp [stop_loop, ih (k + 1), mapIdxFrom, stop_update, stop_kill, hjob]

/-- C4 (amended): `Stop(job_id)` always removes the cron registration if
present.  When it returns `KillError` (a terminate failed), the `?` aborts
before `jobs.remove`, so the job registry is left untouched.  When every
terminate it attempts succeeds, the job is removed from the registry,
`JobNotFound` is reported exactly when the id was not registered, and it
marks `user_terminated` and terminates exactly those Runners of the job that
are still running when it executes; a Runner of the job that has already
exited is left unmarked and unterminated, and Runners of other jobs are
untouched. -/
theorem stop_spec (st : DispatcherState) (tw : Nat → TryWait)
    (kill : Nat → Except Str Unit) (job_id : JobId) :
    mapLookup job_id (st.stop tw kill job_id).2.1.cronjobs = none
    ∧ (∀ e, (st.stop tw kill job_id).1
          = Except.error (DispatcherError.KillError e) →
        (st.stop tw kill job_id).2.1.jobs = st.jobs)
    ∧ ((∀ i, kill i = Except.ok ()) →
        mapLookup job_id (st.stop tw kill job_id).2.1.jobs = none
        ∧ ((st.stop tw kill job_id).1
            = Except.error (DispatcherError.JobNotFoundError job_id)
            ↔ mapLookup job_id st.jobs = none)
        ∧ (∀ (i : Nat) (r : Runner), st.procs[i]? = some r →
            r.info.job_id = job_id →
            (r.update_proc_state (tw i)).info.state.exited = false →
            (st.stop tw kill job_id).2.1.procs[i]?
              = some { r.update_proc_state (tw i) with user_terminated := true }
            ∧ r.info.pid ∈ (st.stop tw kill job_id).2.2)
        ∧ (∀ (i : Nat) (r : Runner), st.procs[i]? = some r →
            r.info.job_id ≠ job_id →
            (st.stop tw kill job_id).2.1.procs[i]? = some r)) := by
  refine ⟨?_, ?_, ?_⟩
  · rcases hsl : stop_loop job_id tw kill 0 st.procs with ⟨procs, kills, _ | e⟩ <;>
      · rw [DispatcherState.stop, hsl]
        rcases hc : mapLookup job_id st.cronjobs with _ | uuid <;>
          rcases mapLookup job_id st.jobs with _ | job <;>
            first
              | simpa using hc
              | simpa using mapLookup_mapRemove_self job_id st.cronjobs
  · intro e he
    rcases hsl : stop_loop job_id tw kill 0 st.procs with ⟨procs, kills, _ | e'⟩
    · rw [DispatcherState.stop, hsl] at he
      dsimp only at he
      repeat' split at he
      all_goals simp_all
    · rw [DispatcherState.stop, hsl]
  · intro hkill
    have hsl := stop_loop_ok job_id tw kill hkill 0 st.procs
    have hstate : (st.stop tw kill job_id).2.1 =
        { st with
          cronjobs := (match mapLookup job_id st.cronjobs with
            | some _ => mapRemove job_id st.cronjobs
            | none => st.cronjobs),
          sched := (match mapLookup job_id st.cronjobs with
            | some uuid => st.sched.filter (fun u => decide (u ≠ uuid))
            | none => st.sched),
          procs := mapIdxFrom (fun i r => stop_update job_id (tw i) r) 0
            st.procs,
          jobs := mapRemove job_id st.jobs } := by
      rw [DispatcherState.stop, hsl]
      rcases mapLookup job_id st.cronjobs with _ | uuid <;>
        rcases mapLookup job_id st.jobs with _ | job <;> rfl
    have hkills : (st.stop tw kill job_id).2.2 =
        (mapIdxFrom (fun i r => stop_kill job_id (tw i) r) 0
          st.procs).filterMap id := by
      rw [DispatcherState.stop, hsl]
      rcases mapLookup job_id st.cronjobs with _ | uuid <;>
        rcases mapLookup job_id st.jobs with _ | job <;> rfl
    refine ⟨?_, ?_, ?_, ?_⟩
    · rw [hstate]
      simpa using mapLookup_mapRemove_self job_id st.jobs
    · rw [DispatcherState.stop, hsl]
      rcases hj : mapLookup job_id st.jobs with _ | job <;>
        rcases mapLookup job_id st.cronjobs with _ | uuid <;>
          simp
    · intro i r hr hjob hrun
      constructor
      · rw [hstate]
        simp [mapIdxFrom_getElem?, hr, stop_update, hjob, hrun]
      · rw [hkills]
        have hidx : (mapIdxFrom (fun i r => stop_kill job_id (tw i) r) 0
            st.procs)[i]? = some (stop_kill job_id (tw i) r) := by
          simp [mapIdxFrom_getElem?, hr]
        apply List.mem_filterMap.mpr
        refine ⟨stop_kill job_id (tw i) r, List.getElem?_mem hidx, ?_⟩
        simp [stop_kill, hjob, hrun, (update_proc_state_fields r (tw i)).1]
    · intro i r hr hjob
      rw [hstate]
      simp [mapIdxFrom_getElem?, hr, stop_update, hjob]

/-- A Runner of job 1 whose child already exited (reaped by the Watcher). -/
def exited_runner : Runner :=
  { info := { job_id := 1, pid := 20, cmd_args := [[106]],
              state := ProcStatus.ExitOk, start := 0, end_ := some 5 },
    restart_info := { policy := Restart.Never, wait_time := 50 },
    user_terminated := false }

/-- Dispatcher state holding job 1 and one exited Runner for it. -/
def exited_state : DispatcherState :=
  { jobs := [(1, JobInfo.new_shell_job [[106]])], last_job_id := 1,
    cronjobs := [], sched := [], procs := [exited_runner] }

/-- C4 counterexample: `Stop(1)` on a state whose only Runner of job 1 has
already exited returns `Ok` and removes the job, but leaves that Runner with
`user_terminated = false` and terminates nothing — the claim that *every*
Runner of the job is marked and terminated fails for exited Runners. -/
theorem stop_skips_exited_runner :
    (exited_state.stop (fun _ => Except.ok (some { code := some 0 }))
        (fun _ => Except.ok ()) 1).2.1.procs.map
        Runner.user_terminated = [false]
    ∧ (exited_state.stop (fun _ => Except.ok (some { code := some 0 }))
        (fun _ => Except.ok ()) 1).2.2 = []
    ∧ (exited_state.stop (fun _ => Except.ok (some { code := some 0 }))
        (fun _ => Except.ok ()) 1).1
      = Except.ok () := by
  refine ⟨rfl, rfl, rfl⟩

/-- A Runner of job 1 that is still running. -/
def running_runner : Runner :=
  { info := { job_id := 1, pid := 21, cmd_args := [[106]],
              state := ProcStatus.Running, start := 0, end_ := none },
    restart_info := { policy := Restart.Never, wait_time := 50 },
    user_terminated := false }

/-- Dispatcher state holding job 1 and one running Runner for it. -/
def running_state : DispatcherState :=
  { jobs := [(1, JobInfo.new_shell_job [[106]])], last_job_id := 1,
    cronjobs := [], sched := [], procs := [running_runner] }

/-- Witness for C4 at a state with a running Runner of the stopped job. -/
theorem stop_spec_witness :
    mapLookup 1 (running_state.stop (fun _ => Except.ok none) (fun _ => Except.ok ()) 1).2.1.jobs = none
    ∧ (running_state.stop (fun _ => Except.ok none) (fun _ => Except.ok ()) 1).2.1.procs[0]?
      = some { running_runner.update_proc_state (Except.ok none) with
               user_terminated := true }
    ∧ running_runner.info.pid ∈ (running_state.stop (fun _ => Except.ok none) (fun _ => Except.ok ()) 1).2.2 := by
  have h := stop_spec running_state (fun _ => Except.ok none)
    (fun _ => Except.ok ()) 1
  have hok := h.2.2 (fun _ => rfl)
  have h4 := hok.2.2.1 0 running_runner rfl rfl rfl
  exact ⟨hok.1, h4.1, h4.2⟩

/-- C8: the closure registered for a cron job calls
`Runner::spawn(..).unwrap()`: a spawn failure at a cron firing is *not*
logged-and-ignored — the callback panics (modelled as `Except.error`), unlike
the Watcher's respawn handler, which logs the error and keeps the Runner list
unchanged.  Evaluated at a failing spawn (OS error) with an empty Runner
list. -/
theorem cron_callback_panics_on_spawn_error :
    cron_callback (Except.error (DispatcherError.ProcSpawnError [])) []
      = Except.error (DispatcherError.ProcSpawnError [])
    ∧ watcher_respawn_push (Except.error (DispatcherError.ProcSpawnError [])) []
      = [] := by
  refine ⟨rfl, rfl⟩

/-- Spawn environment whose OS spawn succeeds with pid 55. -/
def ok_spawn_env : SpawnEnv := { spawn_result := Except.ok 55, now := 0 }

/-- C9 counterexample: from the initial dispatcher state, `Run` with an empty
argv returns `EmptyProcCommand` — yet job 1 *is* registered, with empty
`args`: the registry invariant does not survive an empty-argv `Run`. -/
theorem run_empty_argv_registers_job :
    (DispatcherState.create.run ok_spawn_env ProcStatus.Spawned []).1
      = Except.error DispatcherError.EmptyProcCommandError
    ∧ mapLookup 1
        (DispatcherState.create.run ok_spawn_env ProcStatus.Spawned []).2.jobs
      = some (JobInfo.new_shell_job []) := by
  refine ⟨rfl, rfl⟩

/-- C9 (amended): `Runner::spawn` rejects an empty argv with
`EmptyProcCommand`, so no Runner is ever created with empty `cmd_args` and an
empty-argv `Run` spawns no process and reports the error; but `Dispatcher::run`
registers the Shell job *before* spawning and does not remove it on failure,
so the registry gains a `JobInfo` with empty `args` — the invariant that all
registered jobs have non-empty args holds only for jobs whose spawn was
attempted with a non-empty argv. -/
theorem run_empty_argv_spec (st : DispatcherState) (env : SpawnEnv)
    (observed : ProcStatus) :
    (st.run env observed []).1
      = Except.error DispatcherError.EmptyProcCommandError
    ∧ mapLookup (st.last_job_id + 1) (st.run env observed []).2.jobs
      = some (JobInfo.new_shell_job [])
    ∧ (st.run env observed []).2.procs = st.procs
    ∧ (∀ (job_id : JobId) (args : List Str) (ri : RestartInfo) (r : Runner),
        Runner.spawn job_id args ri env = Except.ok r →
          r.info.cmd_args ≠ []) := by
  have hrun : st.run env observed [] =
      (Except.error DispatcherError.EmptyProcCommandError,
        { st with last_job_id := st.last_job_id + 1,
                  jobs := mapInsert (st.last_job_id + 1)
                    (JobInfo.new_shell_job []) st.jobs }) := by
    simp [DispatcherState.run, DispatcherState.add_job,
      DispatcherState.spawn_job, mapLookup_mapInsert_self, Runner.spawn,
      JobInfo.new_shell_job]
  refine ⟨by rw [hrun], by rw [hrun]; exact mapLookup_mapInsert_self _ _ _,
    by rw [hrun], ?_⟩
  intro job_id args ri r hr
  cases args with
  | nil => simp [Runner.spawn] at hr
  | cons a as =>
      intro hcontra
      cases henv : env.spawn_result with
      | error e => simp [Runner.spawn, henv] at hr
      | ok pid =>
          simp only [Runner.spawn, henv] at hr
          have heq := Except.ok.inj hr
          rw [← heq] at hcontra
          simp at hcontra

/-- Witness for C9's universally quantified spawn conjunct at a concrete
non-empty argv. -/
theorem run_empty_argv_spec_witness :
    (DispatcherState.create.run ok_spawn_env ProcStatus.Spawned []).1
      = Except.error DispatcherError.EmptyProcCommandError
    ∧ (∀ (r : Runner),
        Runner.spawn 1 [[106]] { policy := Restart.Never, wait_time := 50 }
          ok_spawn_env = Except.ok r → r.info.cmd_args ≠ []) := by
  have h := run_empty_argv_spec DispatcherState.create ok_spawn_env
    ProcStatus.Spawned
  exact ⟨h.1, fun r hr => h.2.2.2 1 [[106]] _ r hr⟩

end ShellCompose
